import Mathlib

set_option maxRecDepth 100000

/-!
Verification of the crush pipeline-shell core: a shallow embedding of the
Cell value algebra (`src/data/cell.rs`), the head pass-through command
(`src/commands/head.rs`) and the CSV fan-out worker
(`src/commands/csv.rs`), with theorems settling the specification's
claims about them.

Modelling conventions: Rust `i128` integers are Lean `Int` with the
`i128` range enforced exactly where the code enforces it (string
parsing); filesystem paths are the strings the code builds them from
(every Rust `&str`-built `Path` is valid unicode, so `Path::to_str`
always succeeds on them); external effects (filesystem canonicalization,
the regex compiler of the external crate) are passed in as explicit
function parameters; fallible Rust functions returning `Result` become
`Except`, and a Rust panic becomes an `Option` that is `none`.
-/

/-- JobError from `errors.rs` (not among the repository files): carries a
human-readable message; `error` and `argument_error` build one. -/
structure JobError where
  message : String
deriving DecidableEq

def error (msg : String) : JobError := ⟨msg⟩

def argument_error (msg : String) : JobError := ⟨msg⟩

/-- External capabilities the cell algebra calls but does not own: the
filesystem's path canonicalization (`Path::canonicalize`, used by
`file_result_compare`) and the external regex crate's compiler
(`Regex::new`, here only its success/failure). They are parameters of
the embedding. -/
structure Externals where
  canonicalize : String → Option String
  regex_valid : String → Bool

/-- A fixed choice of externals for concrete evaluations: no path
canonicalizes, every regex source compiles. -/
def ext0 : Externals := ⟨fun _ => none, fun _ => true⟩

/-- CellType from `cell_type.rs` (not among the repository files), as
`Cell::cell_type` in `cell.rs` constructs its values: a tag for every
leaf variant, and composite tags embedding the element/row/column
schema (`CellType::Output(Vec<ColumnType>)` etc.).  A `ColumnType` is
modelled as the pair of its name and its type. -/
inductive CellType where
  | Text
  | Integer
  | Time
  | Duration
  | Field
  | Glob
  | Regex
  | Op
  | Command
  | Closure
  | File
  | Env
  | Bool
  | Output (schema : List (String × CellType))
  | Rows (schema : List (String × CellType))
  | Row (schema : List (String × CellType))
  | List (t : CellType)
  | Dict (kt vt : CellType)

mutual

/-- Structural equality of CellType values, as Rust's derived `PartialEq`
on the `CellType` enum compares them (tag, then payload). -/
def CellType.beq : CellType → CellType → Bool
  | .Text, .Text => true
  | .Integer, .Integer => true
  | .Time, .Time => true
  | .Duration, .Duration => true
  | .Field, .Field => true
  | .Glob, .Glob => true
  | .Regex, .Regex => true
  | .Op, .Op => true
  | .Command, .Command => true
  | .Closure, .Closure => true
  | .File, .File => true
  | .Env, .Env => true
  | .Bool, .Bool => true
  | .Output s1, .Output s2 => schema_beq s1 s2
  | .Rows s1, .Rows s2 => schema_beq s1 s2
  | .Row s1, .Row s2 => schema_beq s1 s2
  | .List t1, .List t2 => CellType.beq t1 t2
  | .Dict k1 v1, .Dict k2 v2 => CellType.beq k1 k2 && CellType.beq v1 v2
  | _, _ => false

/-- Structural equality of two column lists (`Vec<ColumnType>`). -/
def schema_beq : List (String × CellType) → List (String × CellType) → Bool
  | [], [] => true
  | (n1, t1) :: r1, (n2, t2) :: r2 => n1 == n2 && CellType.beq t1 t2 && schema_beq r1 r2
  | _, _ => false

end

/-- Modelled from the spec: the position of a CellType's tag in the
fixed global tag order — "Ordering between cells of different CellType
is defined by a fixed total order over CellType tags".  The CellType
enum and its derived order live in `cell_type.rs`, which is not among
the repository files; the concrete ranking (here the declaration order
of the Cell enum in `cell.rs`) is not observable there and no claim
depends on it. -/
def CellType.rank : CellType → Nat
  | .Text => 0
  | .Integer => 1
  | .Time => 2
  | .Duration => 3
  | .Field => 4
  | .Glob => 5
  | .Regex => 6
  | .Op => 7
  | .Command => 8
  | .Closure => 9
  | .Output _ => 10
  | .File => 11
  | .Rows _ => 12
  | .Row _ => 13
  | .List _ => 14
  | .Dict _ _ => 15
  | .Env => 16
  | .Bool => 17

/-- Modelled from the spec: the fixed total order over CellType tags
(`t1.cmp(&t2)` in `partial_cmp`, whose `Ord` lives in the missing
`cell_type.rs`) — cross-type comparisons order by the tag's rank. -/
def CellType.cmp (t1 t2 : CellType) : Ordering :=
  compare t1.rank t2.rank

/-- Modelled from the spec: the type descriptor's hashability flag
(`CellType::is_hashable`, whose body is not among the repository files)
— "only variants whose CellType is marked hashable may be hashed;
hashing a non-hashable variant (Output, Rows, Row, List, Dict, Closure,
Env) is a programming-contract violation". -/
def is_hashable : CellType → Bool
  | .Output _ => false
  | .Rows _ => false
  | .Row _ => false
  | .List _ => false
  | .Dict _ _ => false
  | .Closure => false
  | .Env => false
  | _ => true

/-- Lexicographic comparison of string sequences, as Rust's `Ord` for
`Vec<Box<str>>` compares a `Field`'s path segments. -/
def compare_strings : List String → List String → Ordering
  | [], [] => .eq
  | [], _ :: _ => .lt
  | _ :: _, [] => .gt
  | a :: as, b :: bs =>
    match compare a b with
    | .eq => compare_strings as bs
    | o => o

/-- Cell from `cell.rs`: the closed tagged union of runtime values.
`Regex` keeps only its source text (`cell.rs` compares and casts regexes
by source).  `Command`, `Closure` and `Env` are opaque references,
modelled by an identifier compared structurally.  `Output` is a live
stream handle; all the code of `cell.rs` ever reads from one is its
schema (`o.stream.get_type()`), so the model keeps the schema. -/
inductive Cell where
  | Text (s : String)
  | Integer (v : Int)
  | Time (t : Int)
  | Duration (d : Nat)
  | Field (path : List String)
  | Glob (pattern : String)
  | Regex (source : String)
  | Op (op : String)
  | Command (id : Nat)
  | Closure (id : Nat)
  | Output (schema : List (String × CellType))
  | File (path : String)
  | Rows (schema : List (String × CellType)) (rows : List (List Cell))
  | Row (schema : List (String × CellType)) (cells : List Cell)
  | List (t : CellType) (cells : List Cell)
  | Dict (kt vt : CellType) (entries : List (Cell × Cell))
  | Env (id : Nat)
  | Bool (b : Bool)

/-- `Cell::cell_type` from `cell.rs`: the type descriptor of a value.
Composite variants embed their schema / element type. -/
def Cell.cell_type : Cell → CellType
  | .Text _ => .Text
  | .Integer _ => .Integer
  | .Time _ => .Time
  | .Duration _ => .Duration
  | .Field _ => .Field
  | .Glob _ => .Glob
  | .Regex _ => .Regex
  | .Op _ => .Op
  | .Command _ => .Command
  | .Closure _ => .Closure
  | .Output s => .Output s
  | .File _ => .File
  | .Rows s _ => .Rows s
  | .Row s _ => .Row s
  | .List t _ => .List t
  | .Dict kt vt _ => .Dict kt vt
  | .Env _ => .Env
  | .Bool _ => .Bool

/-! ### Integer parsing and printing (Rust `i128` `from_str` / `to_string`) -/

/-- The decimal digit character for `d` (meaningful for `d < 10`). -/
def digit_char (d : Nat) : Char := Char.ofNat (48 + d)

/-- The value of a decimal digit character, `none` when `c` is not a
digit. -/
def char_digit (c : Char) : Option Nat :=
  if c.isDigit then some (c.toNat - 48) else none

/-- The decimal digits of `n`, little-endian, by fuelled division (the
fuel makes the definition structurally recursive, hence kernel
reducible; `to_digits_eq_digits` identifies it with `Nat.digits 10`). -/
def to_digits_aux : Nat → Nat → List Nat
  | 0, _ => []
  | fuel + 1, n => if n = 0 then [] else n % 10 :: to_digits_aux fuel (n / 10)

def to_digits (n : Nat) : List Nat := to_digits_aux n n

/-- Decimal representation of a natural number, as Rust `to_string`
prints one. -/
def nat_to_string (n : Nat) : String :=
  String.mk (if n = 0 then ['0'] else ((to_digits n).reverse.map digit_char))

/-- The digit values of a character list, `none` when any character is
not a digit. -/
def digits_of_chars : List Char → Option (List Nat)
  | [] => some []
  | c :: cs =>
    match char_digit c with
    | some d => (digits_of_chars cs).map (fun ds => d :: ds)
    | none => none

/-- Parse a non-empty all-digit character list as a natural number
(big-endian), as Rust's integer `from_str` reads the digit part. -/
def parse_nat : List Char → Option Nat
  | [] => none
  | l => (digits_of_chars l).map (fun ds => ds.foldl (fun a d => 10 * a + d) 0)

/-- Rust `s.parse::<i128>()`: an optional sign, then decimal digits,
rejected on any other character, on an empty digit sequence and on
overflow of the `i128` range. -/
def parseI128 (s : String) : Option Int :=
  match s.data with
  | [] => none
  | c :: rest =>
    if c = '-' then
      match parse_nat rest with
      | some n => if (n : Int) ≤ 2 ^ 127 then some (-(n : Int)) else none
      | none => none
    else if c = '+' then
      match parse_nat rest with
      | some n => if (n : Int) ≤ 2 ^ 127 - 1 then some ((n : Int)) else none
      | none => none
    else
      match parse_nat (c :: rest) with
      | some n => if (n : Int) ≤ 2 ^ 127 - 1 then some ((n : Int)) else none
      | none => none

/-- Rust `i128::to_string`: minus sign for negatives, then the decimal
digits of the absolute value. -/
def i128_to_string (v : Int) : String :=
  if v < 0 then "-" ++ nat_to_string v.natAbs else nat_to_string v.natAbs

/-! ### Glob matching -/

/-- Modelled from the spec: glob pattern matching against a text (the
`glob.rs` internals are outside the repository files) — "a Glob cell
compares equal to a Text cell iff the pattern matches the text", with
`*` matching any character sequence, as in the spec's own example
matching `a*` against `abc` and `abd`.  The fuel is an upper bound on
the recursion depth, which every step decreases. -/
def glob_match_aux : Nat → List Char → List Char → Bool
  | 0, _, _ => false
  | fuel + 1, p, t =>
    match p, t with
    | [], [] => true
    | [], _ :: _ => false
    | '*' :: ps, [] => glob_match_aux fuel ps []
    | '*' :: ps, c :: cs => glob_match_aux fuel ps (c :: cs) || glob_match_aux fuel ('*' :: ps) cs
    | _ :: _, [] => false
    | q :: ps, c :: cs => q == c && glob_match_aux fuel ps cs

def glob_matches (pattern text : String) : Bool :=
  glob_match_aux (pattern.data.length + text.data.length + 1) pattern.data text.data

/-! ### The cast engine (`Cell::cast`) -/

/-- `Cell::cast` from `cell.rs`: identity fast path when the cell's type
already equals the target, else the pairwise conversion matrix, and
"Unimplemented conversion" for every unlisted pair.  `Path` values are
modelled as their (unicode) source strings, so the `to_str` of a path
the code itself built from a string always succeeds; the message of a
failed `i128` parse is the host library's ("invalid digit found in
string" on a non-digit), and regex compilation success is the external
`regex_valid`. -/
def Cell.cast (ext : Externals) (self : Cell) (new_type : CellType) : Except JobError Cell :=
  if CellType.beq self.cell_type new_type then .ok self
  else
    match self, new_type with
    | .Text s, .File => .ok (.File s)
    | .Text s, .Glob => .ok (.Glob s)
    | .Text s, .Integer =>
      match parseI128 s with
      | some v => .ok (.Integer v)
      | none => .error (error "invalid digit found in string")
    | .Text s, .Field => .ok (.Field [s])
    | .Text s, .Op => .ok (.Op s)
    | .Text s, .Regex =>
      if ext.regex_valid s then .ok (.Regex s) else .error (error "invalid regex")
    | .File s, .Text => .ok (.Text s)
    | .File s, .Glob => .ok (.Glob s)
    | .File s, .Integer =>
      match parseI128 s with
      | some v => .ok (.Integer v)
      | none => .error (error "invalid digit found in string")
    | .File s, .Op => .ok (.Op s)
    | .File s, .Regex =>
      if ext.regex_valid s then .ok (.Regex s) else .error (error "invalid regex")
    | .Glob g, .Text => .ok (.Text g)
    | .Glob g, .File => .ok (.File g)
    | .Glob g, .Integer =>
      match parseI128 g with
      | some v => .ok (.Integer v)
      | none => .error (error "invalid digit found in string")
    | .Glob g, .Op => .ok (.Op g)
    | .Glob g, .Regex =>
      if ext.regex_valid g then .ok (.Regex g) else .error (error "invalid regex")
    | .Regex s, .File => .ok (.File s)
    | .Regex s, .Glob => .ok (.Glob s)
    | .Regex s, .Integer =>
      match parseI128 s with
      | some v => .ok (.Integer v)
      | none => .error (error "invalid digit found in string")
    | .Regex s, .Text => .ok (.Text s)
    | .Regex s, .Op => .ok (.Op s)
    | .Integer i, .Text => .ok (.Text (i128_to_string i))
    | .Integer i, .File => .ok (.File (i128_to_string i))
    | .Integer i, .Glob => .ok (.Glob (i128_to_string i))
    | .Integer i, .Field => .ok (.Field [i128_to_string i])
    | .Integer i, .Op => .ok (.Op (i128_to_string i))
    | .Integer i, .Regex =>
      if ext.regex_valid (i128_to_string i) then .ok (.Regex (i128_to_string i))
      else .error (error "invalid regex")
    | _, _ => .error (error "Unimplemented conversion")

/-! ### Partial clone (`Cell::partial_clone`) -/

mutual

/-- `Cell::partial_clone` from `cell.rs`: every variant clones, except
`Output`, which fails with "Invalid use of stream".  The composite
variants (`Rows`, `Row`, `List`, `Dict`) delegate to their own
`partial_clone` with `?`; those live outside the repository files and
are modelled element-wise — they must visit their `Cell` elements
through `Cell::partial_clone` (the `Cell` type has no `Clone` impl), so
a nested `Output` propagates its failure. -/
def Cell.partial_clone : Cell → Except JobError Cell
  | .Text v => .ok (.Text v)
  | .Integer v => .ok (.Integer v)
  | .Time v => .ok (.Time v)
  | .Duration v => .ok (.Duration v)
  | .Field v => .ok (.Field v)
  | .Glob v => .ok (.Glob v)
  | .Regex v => .ok (.Regex v)
  | .Op v => .ok (.Op v)
  | .Command v => .ok (.Command v)
  | .Closure c => .ok (.Closure c)
  | .Output _ => .error (error "Invalid use of stream")
  | .File v => .ok (.File v)
  | .Rows s r => (clone_rows r).map (fun r2 => .Rows s r2)
  | .Row s c => (clone_cells c).map (fun c2 => .Row s c2)
  | .List t c => (clone_cells c).map (fun c2 => .List t c2)
  | .Dict kt vt e => (clone_entries e).map (fun e2 => .Dict kt vt e2)
  | .Env e => .ok (.Env e)
  | .Bool v => .ok (.Bool v)

def clone_cells : List Cell → Except JobError (List Cell)
  | [] => .ok []
  | c :: cs =>
    match Cell.partial_clone c with
    | .ok c2 => (clone_cells cs).map (fun cs2 => c2 :: cs2)
    | .error e => .error e

def clone_rows : List (List Cell) → Except JobError (List (List Cell))
  | [] => .ok []
  | r :: rs =>
    match clone_cells r with
    | .ok r2 => (clone_rows rs).map (fun rs2 => r2 :: rs2)
    | .error e => .error e

def clone_entries : List (Cell × Cell) → Except JobError (List (Cell × Cell))
  | [] => .ok []
  | (k, v) :: es =>
    match Cell.partial_clone k with
    | .ok k2 =>
      match Cell.partial_clone v with
      | .ok v2 => (clone_entries es).map (fun es2 => (k2, v2) :: es2)
      | .error e => .error e
    | .error e => .error e

end

mutual

/-- Whether a cell is or contains (inside `Rows`, `Row`, `List`, `Dict`)
a live `Output` stream handle. -/
def Cell.has_output : Cell → Bool
  | .Output _ => true
  | .Rows _ r => rows_have_output r
  | .Row _ c => cells_have_output c
  | .List _ c => cells_have_output c
  | .Dict _ _ e => entries_have_output e
  | _ => false

def cells_have_output : List Cell → Bool
  | [] => false
  | c :: cs => Cell.has_output c || cells_have_output cs

def rows_have_output : List (List Cell) → Bool
  | [] => false
  | r :: rs => cells_have_output r || rows_have_output rs

def entries_have_output : List (Cell × Cell) → Bool
  | [] => false
  | (k, v) :: es => Cell.has_output k || Cell.has_output v || entries_have_output es

end

/-! ### Comparison (`PartialOrd for Cell`) and equality (`PartialEq for Cell`) -/

mutual

/-- `partial_cmp` from `cell.rs`: cells of different CellType order by
the fixed CellType order; cells of the same type compare by the
variant's rule, with `Command`, `Closure` and `Output` incomparable and
`Rows`/`Row`/`List` comparing element-wise (their own `partial_cmp`
lives outside the repository files and is modelled as the spec states:
"element-wise with the same rules recursively, short-circuiting on
first unequal/incomparable element"). -/
def Cell.partial_cmp (a b : Cell) : Option Ordering :=
  if CellType.beq a.cell_type b.cell_type = false then
    some (CellType.cmp a.cell_type b.cell_type)
  else
    match a, b with
    | .Text v1, .Text v2 => some (compare v1 v2)
    | .Field v1, .Field v2 => some (compare_strings v1 v2)
    | .Glob v1, .Glob v2 => some (compare v1 v2)
    | .Regex v1, .Regex v2 => some (compare v1 v2)
    | .Integer v1, .Integer v2 => some (compare v1 v2)
    | .Time v1, .Time v2 => some (compare v1 v2)
    | .Op v1, .Op v2 => some (compare v1 v2)
    | .File v1, .File v2 => some (compare v1 v2)
    | .Duration v1, .Duration v2 => some (compare v1 v2)
    | .Command _, .Command _ => none
    | .Closure _, _ => none
    | .Output _, _ => none
    | .Rows _ r1, .Rows _ r2 => cmp_rows r1 r2
    | .Row _ c1, .Row _ c2 => cmp_cells c1 c2
    | .List _ c1, .List _ c2 => cmp_cells c1 c2
    | .Bool v1, .Bool v2 => some (compare v1 v2)
    | _, _ => none

/-- Element-wise lexicographic comparison of cell sequences,
short-circuiting on the first unequal or incomparable element. -/
def cmp_cells : List Cell → List Cell → Option Ordering
  | [], [] => some .eq
  | [], _ :: _ => some .lt
  | _ :: _, [] => some .gt
  | a :: as, b :: bs =>
    match Cell.partial_cmp a b with
    | some .eq => cmp_cells as bs
    | o => o

/-- Row-wise lexicographic comparison of row sequences. -/
def cmp_rows : List (List Cell) → List (List Cell) → Option Ordering
  | [], [] => some .eq
  | [], _ :: _ => some .lt
  | _ :: _, [] => some .gt
  | r :: rs, q :: qs =>
    match cmp_cells r q with
    | some .eq => cmp_rows rs qs
    | o => o

end

/-- `file_result_compare` from `cell.rs`: equal iff both paths
canonicalize and the canonical paths agree; any canonicalization
failure makes the comparison false. -/
def file_result_compare (ext : Externals) (f1 f2 : String) : Bool :=
  match ext.canonicalize f1, ext.canonicalize f2 with
  | some p1, some p2 => p1 == p2
  | _, _ => false

mutual

/-- `PartialEq for Cell` from `cell.rs`: structural equality per
variant, except Glob-vs-Text (pattern match, both orders), File-vs-File
and File-vs-Text (canonicalized path comparison) and Rows/Row (equal
iff `partial_cmp` decides `Equal`); every other cross-variant pair is
unequal.  `List` equality (its `PartialEq` lives outside the repository
files) is modelled structurally element-wise. -/
def Cell.eq (ext : Externals) : Cell → Cell → Bool
  | .Text v1, .Text v2 => v1 == v2
  | .Glob g, .Text t => glob_matches g t
  | .Text t, .Glob g => glob_matches g t
  | .Integer v1, .Integer v2 => v1 == v2
  | .Time v1, .Time v2 => v1 == v2
  | .Duration v1, .Duration v2 => v1 == v2
  | .Field v1, .Field v2 => v1 == v2
  | .Glob v1, .Glob v2 => v1 == v2
  | .Regex v1, .Regex v2 => v1 == v2
  | .Op v1, .Op v2 => v1 == v2
  | .Command v1, .Command v2 => v1 == v2
  | .List t1 c1, .List t2 c2 => CellType.beq t1 t2 && eq_cells ext c1 c2
  | .Rows _ r1, .Rows _ r2 => cmp_rows r1 r2 == some .eq
  | .Row _ c1, .Row _ c2 => cmp_cells c1 c2 == some .eq
  | .File v1, .File v2 => file_result_compare ext v1 v2
  | .Text v1, .File v2 => file_result_compare ext v1 v2
  | .File v1, .Text v2 => file_result_compare ext v2 v1
  | .Bool v1, .Bool v2 => v1 == v2
  | _, _ => false

def eq_cells (ext : Externals) : List Cell → List Cell → Bool
  | [], [] => true
  | a :: as, b :: bs => Cell.eq ext a b && eq_cells ext as bs
  | _, _ => false

end

/-- `Hash for Cell` from `cell.rs`: hashing first panics when the type
descriptor is not hashable ("Can't hash mutable cell types!"), then
delegates to the inner value for the hashable variants and panics
("Can't hash output") on `Env`, `Dict`, `Rows`, `Closure`, `List`,
`Output` and `Row`.  A panic is `none`; a successful hash delegation is
`some ()` (the hash value itself belongs to the external `Hasher`). -/
def Cell.hash_result (c : Cell) : Option Unit :=
  if is_hashable c.cell_type = false then none
  else
    match c with
    | .Text _ => some ()
    | .Integer _ => some ()
    | .Time _ => some ()
    | .Field _ => some ()
    | .Glob _ => some ()
    | .Regex _ => some ()
    | .Op _ => some ()
    | .Command _ => some ()
    | .File _ => some ()
    | .Duration _ => some ()
    | .Bool _ => some ()
    | .Env _ => none
    | .Dict _ _ _ => none
    | .Rows _ _ => none
    | .Closure _ => none
    | .List _ _ => none
    | .Output _ => none
    | .Row _ _ => none

/-- The claim's list of forbidden-to-hash variants: Output, Rows, Row,
List, Dict, Closure, Env. -/
def is_unhashable_variant : Cell → Bool
  | .Output _ => true
  | .Rows _ _ => true
  | .Row _ _ => true
  | .List _ _ => true
  | .Dict _ _ _ => true
  | .Closure _ => true
  | .Env _ => true
  | _ => false

/-! ### The head command (`commands/head.rs`) -/

/-- A row as the commands exchange them: the ordered cells
(`Row { cells }`). -/
def RowV := List Cell

/-- An argument as `parse`/`get_line_count` receive them: an optional
name and a cell value. -/
structure Argument where
  name : Option String
  cell : Cell

/-- `get_line_count` from `head.rs`: no argument means 10 lines, one
Integer argument is the count, one argument of any other kind is
"Expected a number", more arguments are "Too many arguments". -/
def get_line_count (arguments : List Argument) : Except JobError Int :=
  match arguments with
  | [] => .ok 10
  | [a] =>
    match a.cell with
    | Cell.Integer v => .ok v
    | _ => .error (argument_error "Expected a number")
  | _ => .error (argument_error "Too many arguments")

/-- The recv/send loop of `run` from `head.rs`, on the input stream's
queued rows: receive a row; if `count >= lines` break (the received row
is consumed but not forwarded), else forward it and continue; a failed
receive (end of stream) breaks.  The result is (the rows sent to the
output, the rows never received from the input). -/
def head_run_aux (lines count : Int) : List RowV → List RowV × List RowV
  | [] => ([], [])
  | r :: rest =>
    if count ≥ lines then ([], rest)
    else
      let p := head_run_aux lines (count + 1) rest
      (r :: p.1, p.2)

/-- `run(lines, input, output)` from `head.rs`, with `count` starting
at 0. -/
def head_run (lines : Int) (input : List RowV) : List RowV × List RowV :=
  head_run_aux lines 0 input

/-! ### The CSV fan-out worker (`commands/csv.rs`) -/

/-- The per-file part of `Config` from `csv.rs` (the resolved file list
is handled by `run`, which calls `handle` once per file). -/
structure CsvConfig where
  separator : Char
  columns : List (String × CellType)
  skip_head : Nat
  trim : Option Char

/-- Rust `str::trim_matches(c)`: remove every leading and trailing
occurrence of `c`. -/
def trim_chars (c : Char) (l : List Char) : List Char :=
  ((l.dropWhile (fun x => x == c)).reverse.dropWhile (fun x => x == c)).reverse

/-- Rust `str::split(sep)`: the fields between separator occurrences;
an empty input gives one empty field. -/
def split_on_char (sep : Char) : List Char → List (List Char)
  | [] => [[]]
  | c :: cs =>
    let r := split_on_char sep cs
    if c = sep then [] :: r
    else
      match r with
      | h :: t => (c :: h) :: t
      | [] => [[c]]

/-- The worker's field splitting (`line_without_newline.split(separator)`
with the per-field `trim_matches` applied inside the same `map`). -/
def split_fields (sep : Char) (trim : Option Char) (line : String) : List String :=
  (split_on_char sep line.data).map fun l =>
    match trim with
    | some c => String.mk (trim_chars c l)
    | none => String.mk l

/-- The worker's second trim pass (`if let Some(trim) = trim { split =
split.map(|s| s.trim_matches(trim)) }`). -/
def apply_trim (trim : Option Char) (fields : List String) : List String :=
  match trim with
  | some c => fields.map (fun s => String.mk (trim_chars c s.data))
  | none => fields

/-- Modelled from the spec: `CellType::parse` (`t.cell_type.parse(*s)`
in the worker; the function itself lives outside the repository files)
— the worker "casts each field to its declared column type", so a field
parses per the cast matrix out of a Text cell (for a Text column that
cast is the identity fast path). -/
def CellType.parse_cell (ext : Externals) (t : CellType) (s : String) : Except JobError Cell :=
  Cell.cast ext (Cell.Text s) t

/-- `split.iter().zip(columns.iter()).map(|(s, t)| t.cell_type.parse(*s))
.collect::<Result<Vec<Cell>, JobError>>()`: the zip truncates to the
shorter sequence and the collect short-circuits on the first failed
cast. -/
def cast_fields (ext : Externals) : List String → List (String × CellType) → Except JobError (List Cell)
  | [], _ => .ok []
  | _, [] => .ok []
  | s :: ss, (_, t) :: ts =>
    match CellType.parse_cell ext t s with
    | .ok c => (cast_fields ext ss ts).map (fun cs => c :: cs)
    | .error e => .error e

/-- What the worker reports to the shared printer sink: `error` messages
and `job_error` values. -/
inductive Diag where
  | msg (s : String)
  | job (e : JobError)
deriving DecidableEq

/-- One iteration of the worker loop in `handle` from `csv.rs`, on one
newline-stripped line: split on the separator (trimming inside the
map), report "csv: Wrong number of columns in CSV file" when the field
count differs from the declared column count (and fall through — the
line is not skipped), apply the second trim pass, then cast the fields
zipped against the columns: on success send the row, on failure report
the job error.  The result is (the rows sent into the nested stream,
the diagnostics reported to the sink). -/
def process_line (ext : Externals) (cfg : CsvConfig) (line : String) : List RowV × List Diag :=
  let split := split_fields cfg.separator cfg.trim line
  let diags :=
    if split.length ≠ cfg.columns.length then [Diag.msg "csv: Wrong number of columns in CSV file"]
    else []
  let split2 := apply_trim cfg.trim split
  match cast_fields ext split2 cfg.columns with
  | .ok cells => ([cells], diags)
  | .error e => ([], diags ++ [Diag.job e])

/-- The whole worker loop of `handle`, over the file's lines in order. -/
def csv_worker (ext : Externals) (cfg : CsvConfig) : List String → List RowV × List Diag
  | [] => ([], [])
  | line :: rest =>
    let p := process_line ext cfg line
    let q := csv_worker ext cfg rest
    (p.1 ++ q.1, p.2 ++ q.2)

/-- The worker's line framing: `read_line` returns each chunk up to and
including a newline (or the remaining bytes when the file does not end
in one), an empty chunk ends the loop, and the worker drops the chunk's
last character (`&line[0..line.len() - 1]`) — for a final chunk without
a newline that drops a data character, reproduced faithfully. -/
def read_lines_aux : List Char → List Char → List String
  | [], acc =>
    match acc with
    | [] => []
    | _ => [String.mk acc.reverse.dropLast]
  | '\n' :: cs, acc => String.mk acc.reverse :: read_lines_aux cs []
  | c :: cs, acc => read_lines_aux cs (c :: acc)

def read_lines (content : String) : List String :=
  read_lines_aux content.data []

/-- The spawned thread of `handle` on one file's content: frame the
lines, then run the worker loop. -/
def handle_worker (ext : Externals) (cfg : CsvConfig) (content : String) : List RowV × List Diag :=
  csv_worker ext cfg (read_lines content)

/-- Modelled from the spec, for comparison with the code: the worker
"skips a configured header-line count" — it should drop the first
`skip_head` lines before splitting, casting and sending. -/
def csv_worker_spec (ext : Externals) (cfg : CsvConfig) (lines : List String) : List RowV × List Diag :=
  csv_worker ext cfg (lines.drop cfg.skip_head)

/-! ### Concrete fixtures used by witnesses and counterexamples -/

/-- A five-row input stream. -/
def ex5 : List RowV :=
  [[Cell.Integer 1], [Cell.Integer 2], [Cell.Integer 3], [Cell.Integer 4], [Cell.Integer 5]]

/-- The claim's CSV configuration: separator `,`, two declared Integer
columns, no header skip, no trim. -/
def cfg2 : CsvConfig := ⟨',', [("a", CellType.Integer), ("b", CellType.Integer)], 0, none⟩

/-- The claim's CSV file content: the second line has one field, not
two. -/
def csv_file2 : String := "a,b\n1\n3,4\n"

/-- A CSV configuration with a header-skip count of 1, one Integer
column. -/
def cfg3 : CsvConfig := ⟨',', [("a", CellType.Integer)], 1, none⟩

/-! ### Helper lemmas -/

mutual

theorem CellType.beq_refl : (t : CellType) → CellType.beq t t = true
  | .Text => rfl
  | .Integer => rfl
  | .Time => rfl
  | .Duration => rfl
  | .Field => rfl
  | .Glob => rfl
  | .Regex => rfl
  | .Op => rfl
  | .Command => rfl
  | .Closure => rfl
  | .File => rfl
  | .Env => rfl
  | .Bool => rfl
  | .Output s => schema_beq_refl s
  | .Rows s => schema_beq_refl s
  | .Row s => schema_beq_refl s
  | .List t => CellType.beq_refl t
  | .Dict k v => by
    have h : CellType.beq (.Dict k v) (.Dict k v) = (CellType.beq k k && CellType.beq v v) := rfl
    rw [h, CellType.beq_refl k, CellType.beq_refl v]
    rfl

theorem schema_beq_refl : (l : List (String × CellType)) → schema_beq l l = true
  | [] => rfl
  | (n, t) :: r => by
    have h : schema_beq ((n, t) :: r) ((n, t) :: r) =
        ((n == n && CellType.beq t t) && schema_beq r r) := rfl
    rw [h, beq_self_eq_true, CellType.beq_refl t, schema_beq_refl r]
    rfl

end

theorem head_run_aux_eq (lines : Int) (input : List RowV) : ∀ count : Int,
    head_run_aux lines count input =
      (input.take (lines - count).toNat, input.drop ((lines - count).toNat + 1)) := by
  induction input with
  | nil => intro count; simp [head_run_aux]
  | cons r rest ih =>
    intro count
    by_cases h : count ≥ lines
    · have h0 : (lines - count).toNat = 0 := by omega
      simp [head_run_aux, h, h0]
    · have h2 : (lines - count).toNat = (lines - (count + 1)).toNat + 1 := by omega
      simp [head_run_aux, h, ih (count + 1), h2]

/-! ### The claims -/

/-- C10: `get_line_count` returns 10 on an empty argument list, `v` on a
single `Integer(v)` argument, the "Expected a number" argument error on
a single argument of any other kind, and the "Too many arguments"
argument error on two or more arguments. -/
theorem args_c10_get_line_count :
    get_line_count [] = .ok 10
    ∧ (∀ nm v, get_line_count [⟨nm, Cell.Integer v⟩] = .ok v)
    ∧ (∀ a : Argument, (∀ v, a.cell ≠ Cell.Integer v) →
        get_line_count [a] = .error (argument_error "Expected a number"))
    ∧ (∀ a b rest, get_line_count (a :: b :: rest) =
        .error (argument_error "Too many arguments")) := by
  refine ⟨rfl, fun nm v => rfl, ?_, fun a b rest => rfl⟩
  intro a h
  obtain ⟨nm, c⟩ := a
  cases c <;> first | rfl | exact absurd rfl (h _)

/-- C10 witness: the error cases at concrete arguments. -/
theorem args_c10_witness :
    get_line_count [⟨none, Cell.Text "x"⟩] = .error (argument_error "Expected a number")
    ∧ get_line_count [⟨none, Cell.Integer 5⟩, ⟨none, Cell.Integer 6⟩] =
        .error (argument_error "Too many arguments") :=
  ⟨args_c10_get_line_count.2.2.1 ⟨none, Cell.Text "x"⟩ (fun _ h => Cell.noConfusion h),
   args_c10_get_line_count.2.2.2 _ _ []⟩

/-- C1 counterexample: on the five-row input with count 2, the rows the
loop never receives are only the last two — the loop consumes the third
row (it receives it before noticing the count is reached), so "the
remaining 3 rows are never read" fails. -/
theorem head_c1_counterexample :
    (head_run 2 ex5).2 = [[Cell.Integer 4], [Cell.Integer 5]]
    ∧ (head_run 2 ex5).2 ≠ ex5.drop 2 := by
  constructor
  · rfl
  · intro h
    have h2 : ([[Cell.Integer 4], [Cell.Integer 5]] : List RowV) = ex5.drop 2 := h
    simpa [ex5] using congrArg List.length h2

/-- C1 (amended): the loop forwards unchanged exactly the first
`min(count, length)` rows, and then stops — after forwarding its quota
it still consumes one more row (if the input has one) before breaking,
so with count 2 on a five-row input the first two rows are forwarded,
the third is read and discarded, and only the last two are never read;
with count 0 no row is ever forwarded. -/
theorem head_c1_amended :
    (∀ lines input, head_run lines input =
      (input.take lines.toNat, input.drop (lines.toNat + 1)))
    ∧ (∀ input, (head_run 0 input).1 = [])
    ∧ head_run 2 ex5 = (ex5.take 2, ex5.drop 3) := by
  have hmain : ∀ lines input, head_run lines input =
      (input.take lines.toNat, input.drop (lines.toNat + 1)) := by
    intro lines input
    have := head_run_aux_eq lines input 0
    simpa [head_run] using this
  refine ⟨hmain, fun input => ?_, by rfl⟩
  rw [hmain 0 input]
  simp

/-- C7: casting a `Field` cell to File, Glob, Integer, Op, Regex or Text
always fails with the "Unimplemented conversion" error (the Field
conversion arms are commented out of the cast matrix). -/
theorem cast_c7_field_unimplemented (ext : Externals) (path : List String) :
    Cell.cast ext (.Field path) .File = .error (error "Unimplemented conversion")
    ∧ Cell.cast ext (.Field path) .Glob = .error (error "Unimplemented conversion")
    ∧ Cell.cast ext (.Field path) .Integer = .error (error "Unimplemented conversion")
    ∧ Cell.cast ext (.Field path) .Op = .error (error "Unimplemented conversion")
    ∧ Cell.cast ext (.Field path) .Regex = .error (error "Unimplemented conversion")
    ∧ Cell.cast ext (.Field path) .Text = .error (error "Unimplemented conversion") :=
  ⟨rfl, rfl, rfl, rfl, rfl, rfl⟩

/-- C8: hashing panics exactly on the Output, Rows, Row, List, Dict,
Closure and Env variants and succeeds on every other variant, and
success is exactly what the type descriptor's hashable flag reports. -/
theorem hash_c8_contract (c : Cell) :
    (Cell.hash_result c = none ↔ is_unhashable_variant c = true)
    ∧ (Cell.hash_result c = some () ↔ is_hashable c.cell_type = true) := by
  cases c <;>
    simp [Cell.hash_result, is_unhashable_variant, is_hashable, Cell.cell_type]

/-- C9: a Glob cell equals a Text cell exactly when the pattern matches
the text, identically in both argument orders; the relation is not
transitive: `a*` equals both `abc` and `abd`, which differ. -/
theorem eq_c9_glob_text :
    (∀ ext g t, Cell.eq ext (Cell.Glob g) (Cell.Text t) = glob_matches g t)
    ∧ (∀ ext g t, Cell.eq ext (Cell.Glob g) (Cell.Text t) =
        Cell.eq ext (Cell.Text t) (Cell.Glob g))
    ∧ Cell.eq ext0 (Cell.Glob "a*") (Cell.Text "abc") = true
    ∧ Cell.eq ext0 (Cell.Glob "a*") (Cell.Text "abd") = true
    ∧ Cell.eq ext0 (Cell.Text "abc") (Cell.Text "abd") = false :=
  ⟨fun _ _ _ => rfl, fun _ _ _ => rfl, by decide, by decide, by decide⟩

mutual

theorem partial_clone_spec : (c : Cell) →
    Cell.partial_clone c =
      (if Cell.has_output c then .error (error "Invalid use of stream") else .ok c)
  | .Text _ => rfl
  | .Integer _ => rfl
  | .Time _ => rfl
  | .Duration _ => rfl
  | .Field _ => rfl
  | .Glob _ => rfl
  | .Regex _ => rfl
  | .Op _ => rfl
  | .Command _ => rfl
  | .Closure _ => rfl
  | .Output _ => rfl
  | .File _ => rfl
  | .Env _ => rfl
  | .Bool _ => rfl
  | .Rows s r => by
    have e1 : Cell.partial_clone (.Rows s r) =
        (clone_rows r).map (fun r2 => Cell.Rows s r2) := rfl
    have e2 : Cell.has_output (Cell.Rows s r) = rows_have_output r := rfl
    rw [e1, e2, clone_rows_spec r]
    by_cases h : rows_have_output r <;> simp [h, Except.map]
  | .Row s c => by
    have e1 : Cell.partial_clone (.Row s c) =
        (clone_cells c).map (fun c2 => Cell.Row s c2) := rfl
    have e2 : Cell.has_output (Cell.Row s c) = cells_have_output c := rfl
    rw [e1, e2, clone_cells_spec c]
    by_cases h : cells_have_output c <;> simp [h, Except.map]
  | .List t c => by
    have e1 : Cell.partial_clone (.List t c) =
        (clone_cells c).map (fun c2 => Cell.List t c2) := rfl
    have e2 : Cell.has_output (Cell.List t c) = cells_have_output c := rfl
    rw [e1, e2, clone_cells_spec c]
    by_cases h : cells_have_output c <;> simp [h, Except.map]
  | .Dict kt vt e => by
    have e1 : Cell.partial_clone (.Dict kt vt e) =
        (clone_entries e).map (fun e2 => Cell.Dict kt vt e2) := rfl
    have e2 : Cell.has_output (Cell.Dict kt vt e) = entries_have_output e := rfl
    rw [e1, e2, clone_entries_spec e]
    by_cases h : entries_have_output e <;> simp [h, Except.map]

theorem clone_cells_spec : (l : List Cell) →
    clone_cells l =
      (if cells_have_output l then .error (error "Invalid use of stream") else .ok l)
  | [] => rfl
  | c :: cs => by
    have e1 : clone_cells (c :: cs) =
        (match Cell.partial_clone c with
         | .ok c2 => (clone_cells cs).map (fun cs2 => c2 :: cs2)
         | .error e => .error e) := rfl
    have e2 : cells_have_output (c :: cs) = (Cell.has_output c || cells_have_output cs) := rfl
    rw [e1, e2, partial_clone_spec c, clone_cells_spec cs]
    by_cases h : Cell.has_output c
    · simp [h]
    · by_cases h2 : cells_have_output cs <;> simp [h, h2, Except.map]

theorem clone_rows_spec : (l : List (List Cell)) →
    clone_rows l =
      (if rows_have_output l then .error (error "Invalid use of stream") else .ok l)
  | [] => rfl
  | r :: rs => by
    have e1 : clone_rows (r :: rs) =
        (match clone_cells r with
         | .ok r2 => (clone_rows rs).map (fun rs2 => r2 :: rs2)
         | .error e => .error e) := rfl
    have e2 : rows_have_output (r :: rs) = (cells_have_output r || rows_have_output rs) := rfl
    rw [e1, e2, clone_cells_spec r, clone_rows_spec rs]
    by_cases h : cells_have_output r
    · simp [h]
    · by_cases h2 : rows_have_output rs <;> simp [h, h2, Except.map]

theorem clone_entries_spec : (l : List (Cell × Cell)) →
    clone_entries l =
      (if entries_have_output l then .error (error "Invalid use of stream") else .ok l)
  | [] => rfl
  | (k, v) :: es => by
    have e1 : clone_entries ((k, v) :: es) =
        (match Cell.partial_clone k with
         | .ok k2 =>
           (match Cell.partial_clone v with
            | .ok v2 => (clone_entries es).map (fun es2 => (k2, v2) :: es2)
            | .error e => .error e)
         | .error e => .error e) := rfl
    have e2 : entries_have_output ((k, v) :: es) =
        (Cell.has_output k || Cell.has_output v || entries_have_output es) := rfl
    rw [e1, e2, partial_clone_spec k, partial_clone_spec v, clone_entries_spec es]
    by_cases h : Cell.has_output k
    · simp [h]
    · by_cases h2 : Cell.has_output v
      · simp [h, h2]
      · by_cases h3 : entries_have_output es <;> simp [h, h2, h3, Except.map]

end

/-- C4 counterexample: a `List` cell holding a nested `Output` — a
variant other than `Output` — also fails to clone, with the same
"Invalid use of stream" error, so "partial_clone succeeds for every
Cell variant except Output" fails. -/
theorem clone_c4_counterexample :
    Cell.partial_clone (Cell.List (CellType.Output []) [Cell.Output []]) =
      .error (error "Invalid use of stream") := rfl

/-- C4 (amended): `partial_clone` on an `Output` cell fails with the
"Invalid use of stream" error; on every cell that contains no live
`Output` (at top level or nested inside `Rows`/`Row`/`List`/`Dict`) it
succeeds with an equal cell; a nested `Output` propagates the same
failure. -/
theorem clone_c4_amended :
    (∀ s, Cell.partial_clone (.Output s) = .error (error "Invalid use of stream"))
    ∧ (∀ c : Cell, Cell.partial_clone c =
        (if Cell.has_output c then .error (error "Invalid use of stream") else .ok c)) :=
  ⟨fun _ => rfl, partial_clone_spec⟩

/-- C5 counterexample: two `Output` cells whose stream schemas differ
have different CellTypes, so `partial_cmp` returns a decided ordering
for them, not "incomparable" — "Output always returns incomparable even
against itself" fails. -/
theorem cmp_c5_counterexample :
    Cell.partial_cmp (Cell.Output []) (Cell.Output [("a", CellType.Integer)]) ≠ none := by
  have h : CellType.beq (Cell.Output []).cell_type
      (Cell.Output [("a", CellType.Integer)]).cell_type = false := rfl
  simp [Cell.partial_cmp, h]

/-- C5 (amended): `Command` and `Closure` cells always compare
incomparable against their own kind, and an `Output` cell is
incomparable with an `Output` cell of the same stream schema; any two
cells whose CellTypes differ — including two `Output` cells with
different schemas — receive the decided ordering of the fixed CellType
order, never "incomparable". -/
theorem cmp_c5_amended :
    (∀ x y, Cell.partial_cmp (Cell.Command x) (Cell.Command y) = none)
    ∧ (∀ x y, Cell.partial_cmp (Cell.Closure x) (Cell.Closure y) = none)
    ∧ (∀ s, Cell.partial_cmp (Cell.Output s) (Cell.Output s) = none)
    ∧ (∀ a b : Cell, CellType.beq a.cell_type b.cell_type = false →
        Cell.partial_cmp a b = some (CellType.cmp a.cell_type b.cell_type)) := by
  refine ⟨fun x y => rfl, fun x y => rfl, fun s => ?_, fun a b h => ?_⟩
  · have h : CellType.beq (CellType.Output s) (CellType.Output s) = true :=
      CellType.beq_refl _
    unfold Cell.partial_cmp
    simp [Cell.cell_type, h]
  · unfold Cell.partial_cmp
    simp [h]

/-- C5 witness: the cross-type conjunct at a concrete pair (a Text cell
against an Integer cell). -/
theorem cmp_c5_witness :
    Cell.partial_cmp (Cell.Text "a") (Cell.Integer 1) =
      some (CellType.cmp CellType.Text CellType.Integer) :=
  cmp_c5_amended.2.2.2 (Cell.Text "a") (Cell.Integer 1) rfl

/-- C3 counterexample: with a header-skip count of 1, the worker still
emits a row for the first line — no line is skipped — while the spec's
skipping worker would emit only the second line's row. -/
theorem csv_c3_counterexample :
    csv_worker ext0 cfg3 ["5", "6"] = ([[Cell.Integer 5], [Cell.Integer 6]], [])
    ∧ csv_worker_spec ext0 cfg3 ["5", "6"] = ([[Cell.Integer 6]], [])
    ∧ csv_worker ext0 cfg3 ["5", "6"] ≠ csv_worker_spec ext0 cfg3 ["5", "6"] := by
  refine ⟨rfl, rfl, ?_⟩
  intro h
  have h2 : (([[Cell.Integer 5], [Cell.Integer 6]], ([] : List Diag)) : List RowV × List Diag) =
      (([[Cell.Integer 6]], []) : List RowV × List Diag) := h
  have h3 := congrArg (fun p => p.1.length) h2
  simp at h3

/-- C3 (amended): the worker never skips lines — its behaviour is
independent of the configured `skip_head` (the field is set but never
read), so it coincides with the spec's header-skipping worker exactly
when the skip count is 0, the only value `parse` ever constructs. -/
theorem csv_c3_amended :
    (∀ ext sep cols n trim lines,
      csv_worker ext ⟨sep, cols, n, trim⟩ lines = csv_worker ext ⟨sep, cols, 0, trim⟩ lines)
    ∧ (∀ ext cfg lines, cfg.skip_head = 0 →
        csv_worker ext cfg lines = csv_worker_spec ext cfg lines) := by
  constructor
  · intro ext sep cols n trim lines
    induction lines with
    | nil => rfl
    | cons l ls ih =>
      have hp : process_line ext ⟨sep, cols, n, trim⟩ l =
          process_line ext ⟨sep, cols, 0, trim⟩ l := rfl
      simp [csv_worker, ih, hp]
  · intro ext cfg lines h
    simp [csv_worker_spec, h]

/-- C3 witness: the skip-count-0 conjunct at a concrete configuration
and file. -/
theorem csv_c3_witness :
    csv_worker ext0 cfg2 ["1,2"] = csv_worker_spec ext0 cfg2 ["1,2"] :=
  csv_c3_amended.2 ext0 cfg2 ["1,2"] rfl

/-- C2 counterexample: for the file `a,b\n1\n3,4\n` with two declared
Integer columns, the malformed second line `1` is NOT skipped: a
one-cell row `[Integer 1]` is emitted for it (alongside its
wrong-column-count diagnostic), so the nested stream does not consist
of the two well-formed rows. -/
theorem csv_c2_counterexample :
    process_line ext0 cfg2 "1" =
      ([[Cell.Integer 1]], [Diag.msg "csv: Wrong number of columns in CSV file"])
    ∧ (handle_worker ext0 cfg2 csv_file2).1 =
        [[Cell.Integer 1], [Cell.Integer 3, Cell.Integer 4]] :=
  ⟨rfl, rfl⟩

/-- C2 (amended): for every line whose field count differs from the
declared column count, the wrong-column-count diagnostic is reported to
the sink, but the line is not skipped for emission: its fields are
zipped against the columns (truncating to the shorter) and a row is
emitted whenever every zipped cast succeeds; on the file
`a,b\n1\n3,4\n` with two Integer columns the nested stream receives the
truncated row `[Integer 1]` and the well-formed `[Integer 3, Integer
4]`, while the header line `a,b` yields only a cast-failure
diagnostic. -/
theorem csv_c2_amended :
    (∀ ext cfg line,
      (split_fields cfg.separator cfg.trim line).length ≠ cfg.columns.length →
      Diag.msg "csv: Wrong number of columns in CSV file" ∈ (process_line ext cfg line).2
      ∧ ∀ cells,
          cast_fields ext (apply_trim cfg.trim (split_fields cfg.separator cfg.trim line))
              cfg.columns = Except.ok cells →
          (process_line ext cfg line).1 = [cells])
    ∧ handle_worker ext0 cfg2 csv_file2 =
        ([[Cell.Integer 1], [Cell.Integer 3, Cell.Integer 4]],
         [Diag.job (error "invalid digit found in string"),
          Diag.msg "csv: Wrong number of columns in CSV file"]) := by
  refine ⟨?_, rfl⟩
  intro ext cfg line h
  constructor
  · unfold process_line
    cases hc : cast_fields ext (apply_trim cfg.trim (split_fields cfg.separator cfg.trim line))
        cfg.columns with
    | ok cells => simp [h, hc]
    | error e => simp [h, hc]
  · intro cells hc
    unfold process_line
    simp [h, hc]

/-- C2 witness: the mismatch conjunct at the concrete malformed line
`1` of the claim's file. -/
theorem csv_c2_witness :
    Diag.msg "csv: Wrong number of columns in CSV file" ∈ (process_line ext0 cfg2 "1").2 :=
  (csv_c2_amended.1 ext0 cfg2 "1" (by decide)).1

theorem to_digits_aux_eq : ∀ fuel n : Nat, n ≤ fuel → to_digits_aux fuel n = Nat.digits 10 n := by
  intro fuel
  induction fuel with
  | zero =>
    intro n h
    have h0 : n = 0 := by omega
    subst h0
    simp [to_digits_aux]
  | succ f ih =>
    intro n h
    by_cases h0 : n = 0
    · subst h0; simp [to_digits_aux]
    · have hle : n / 10 ≤ f := by omega
      rw [to_digits_aux, if_neg h0, ih (n / 10) hle,
        ← Nat.digits_def' (by norm_num : (1 : Nat) < 10) (Nat.pos_of_ne_zero h0)]

theorem to_digits_eq (n : Nat) : to_digits n = Nat.digits 10 n :=
  to_digits_aux_eq n n le_rfl

theorem char_digit_digit_char : ∀ d : Nat, d < 10 → char_digit (digit_char d) = some d := by
  decide

theorem digit_char_isDigit : ∀ d : Nat, d < 10 → (digit_char d).isDigit = true := by
  decide

theorem digits_of_chars_map : ∀ l : List Nat, (∀ d ∈ l, d < 10) →
    digits_of_chars (l.map digit_char) = some l := by
  intro l
  induction l with
  | nil => intro h; rfl
  | cons d ds ih =>
    intro h
    have hd : d < 10 := h d (List.mem_cons_self d ds)
    have hds : ∀ x ∈ ds, x < 10 := fun x hx => h x (List.mem_cons_of_mem d hx)
    simp [digits_of_chars, char_digit_digit_char d hd, ih hds]

theorem foldl_ofDigits : ∀ (l : List Nat) (a : Nat),
    l.foldl (fun acc d => 10 * acc + d) a = Nat.ofDigits 10 l.reverse + a * 10 ^ l.length := by
  intro l
  induction l with
  | nil => intro a; simp [Nat.ofDigits_nil]
  | cons d ds ih =>
    intro a
    simp only [List.foldl_cons, ih, List.reverse_cons, Nat.ofDigits_append,
      List.length_reverse, List.length_cons, Nat.ofDigits_singleton]
    ring

theorem parse_nat_to_string (n : Nat) : parse_nat (nat_to_string n).data = some n := by
  by_cases h0 : n = 0
  · subst h0; rfl
  · have hdig : ∀ d ∈ (Nat.digits 10 n).reverse, d < 10 := fun d hd =>
      Nat.digits_lt_base (by norm_num) (List.mem_reverse.mp hd)
    have hne : Nat.digits 10 n ≠ [] := Nat.digits_ne_nil_iff_ne_zero.mpr h0
    have hdata : (nat_to_string n).data = ((Nat.digits 10 n).reverse.map digit_char) := by
      simp [nat_to_string, h0, to_digits_eq]
    rw [hdata]
    cases hL : (Nat.digits 10 n).reverse.map digit_char with
    | nil =>
      exfalso
      simp only [List.map_eq_nil_iff, List.reverse_eq_nil_iff] at hL
      exact hne hL
    | cons c cs =>
      have e1 : parse_nat (c :: cs) = (digits_of_chars (c :: cs)).map
          (fun ds => ds.foldl (fun a d => 10 * a + d) 0) := rfl
      rw [e1, ← hL, digits_of_chars_map _ hdig]
      simp [foldl_ofDigits, List.reverse_reverse, Nat.ofDigits_digits]

theorem nat_to_string_isDigit (n : Nat) : ∀ c ∈ (nat_to_string n).data, c.isDigit = true := by
  intro c hc
  by_cases h0 : n = 0
  · subst h0
    simp [nat_to_string] at hc
    subst hc
    decide
  · have hdata : (nat_to_string n).data = ((Nat.digits 10 n).reverse.map digit_char) := by
      simp [nat_to_string, h0, to_digits_eq]
    rw [hdata] at hc
    obtain ⟨d, hd, rfl⟩ := List.mem_map.mp hc
    exact digit_char_isDigit d (Nat.digits_lt_base (by norm_num) (List.mem_reverse.mp hd))

theorem parseI128_to_string (v : Int) (h1 : -(2 ^ 127) ≤ v) (h2 : v ≤ 2 ^ 127 - 1) :
    parseI128 (i128_to_string v) = some v := by
  by_cases hv : v < 0
  · have hs : i128_to_string v = "-" ++ nat_to_string v.natAbs := if_pos hv
    have hdata : ("-" ++ nat_to_string v.natAbs).data =
        '-' :: (nat_to_string v.natAbs).data := by
      rw [String.data_append]
      rfl
    have hle : ((v.natAbs : Nat) : Int) ≤ 2 ^ 127 := by omega
    have hva : -((v.natAbs : Nat) : Int) = v := by omega
    rw [hs]
    simp only [parseI128, hdata, if_pos rfl, parse_nat_to_string, hle, if_true, hva]
  · have hs : i128_to_string v = nat_to_string v.natAbs := if_neg hv
    rw [hs]
    cases hd : (nat_to_string v.natAbs).data with
    | nil =>
      exfalso
      have hp := parse_nat_to_string v.natAbs
      rw [hd] at hp
      exact Option.noConfusion hp
    | cons c cs =>
      have hcdig : c.isDigit = true := by
        refine nat_to_string_isDigit v.natAbs c ?_
        rw [hd]
        exact List.mem_cons_self c cs
      have hc1 : ¬(c = '-') := fun h => by
        subst h
        exact absurd hcdig (by decide)
      have hc2 : ¬(c = '+') := fun h => by
        subst h
        exact absurd hcdig (by decide)
      have hle : ((v.natAbs : Nat) : Int) ≤ 2 ^ 127 - 1 := by omega
      have hva : ((v.natAbs : Nat) : Int) = v := by omega
      simp only [parseI128, hd, if_neg hc1, if_neg hc2]
      rw [← hd, parse_nat_to_string]
      show (if ((v.natAbs : Nat) : Int) ≤ 2 ^ 127 - 1 then some ((v.natAbs : Nat) : Int)
        else none) = some v
      rw [if_pos hle, hva]

theorem parseI128_bounds (s : String) (v : Int) (h : parseI128 s = some v) :
    -(2 ^ 127) ≤ v ∧ v ≤ 2 ^ 127 - 1 := by
  unfold parseI128 at h
  split at h
  · simp at h
  · split at h
    · split at h
      · split at h
        · injection h with h2
          omega
        · simp at h
      · simp at h
    · split at h
      · split at h
        · split at h
          · injection h with h2
            omega
          · simp at h
        · simp at h
      · split at h
        · split at h
          · injection h with h2
            omega
          · simp at h
        · simp at h

/-- C6 counterexample: the text `x` casts to an Op cell, but casting
that Op cell back to Text fails — there is no Op-to-Text arm in the
cast matrix — so the claimed Op round trip fails. -/
theorem cast_c6_counterexample :
    Cell.cast ext0 (.Text "x") .Op = .ok (.Op "x")
    ∧ Cell.cast ext0 (.Op "x") .Text = .error (error "Unimplemented conversion") :=
  ⟨rfl, rfl⟩

/-- C6 (amended): a cell produced by casting Text to File or to Glob
casts back to Text as exactly the original text, and one produced by
casting Text to Integer casts back to a Text holding the same numeric
value (the canonical decimal form, so leading zeros are lost); but a
cell produced by casting Text to Op cannot be cast back at all — every
Op-to-Text cast fails with the "Unimplemented conversion" error. -/
theorem cast_c6_amended :
    (∀ ext s v, Cell.cast ext (.Text s) .File = .ok v →
        Cell.cast ext v .Text = .ok (.Text s))
    ∧ (∀ ext s v, Cell.cast ext (.Text s) .Glob = .ok v →
        Cell.cast ext v .Text = .ok (.Text s))
    ∧ (∀ ext s n, Cell.cast ext (.Text s) .Integer = .ok (.Integer n) →
        Cell.cast ext (.Integer n) .Text = .ok (.Text (i128_to_string n))
        ∧ parseI128 (i128_to_string n) = some n ∧ parseI128 s = some n)
    ∧ (∀ ext s, Cell.cast ext (.Op s) .Text = .error (error "Unimplemented conversion")) := by
  refine ⟨fun ext s v h => ?_, fun ext s v h => ?_, fun ext s n h => ?_, fun ext s => rfl⟩
  · have h2 : Except.ok (ε := JobError) (Cell.File s) = Except.ok v := h
    injection h2 with h3
    subst h3
    rfl
  · have h2 : Except.ok (ε := JobError) (Cell.Glob s) = Except.ok v := h
    injection h2 with h3
    subst h3
    rfl
  · have h2 : (match parseI128 s with
        | some w => Except.ok (ε := JobError) (Cell.Integer w)
        | none => Except.error (error "invalid digit found in string")) =
        .ok (.Integer n) := h
    cases hp : parseI128 s with
    | none => rw [hp] at h2; exact Except.noConfusion h2
    | some w =>
      rw [hp] at h2
      have h3 : w = n := by
        injection h2 with h4
        exact Cell.Integer.inj h4
      subst h3
      obtain ⟨hb1, hb2⟩ := parseI128_bounds s w hp
      exact ⟨rfl, parseI128_to_string w hb1 hb2, rfl⟩

/-- C6 witness: the File leg at text `x`, and the Integer leg at text
`007`, whose round trip returns the text `7` — same numeric value,
original leading zeros lost. -/
theorem cast_c6_witness :
    Cell.cast ext0 (.File "x") .Text = .ok (.Text "x")
    ∧ (Cell.cast ext0 (.Integer 7) .Text = .ok (.Text (i128_to_string 7))
        ∧ parseI128 (i128_to_string 7) = some 7 ∧ parseI128 "007" = some 7)
    ∧ i128_to_string 7 = "7" :=
  ⟨cast_c6_amended.1 ext0 "x" (Cell.File "x") rfl,
   cast_c6_amended.2.2.1 ext0 "007" 7 rfl,
   rfl⟩
